import Mathlib

/-
  Shallow embedding of the movie-discovery client:
  - src/services/tmdb-service.ts : error classification and the retry transport
  - src/hooks/usePaginatedMovies.ts : the paginated fetch controller
  - src/navigation/AppNavigator.tsx : the view-history navigator
-/

namespace MovieDiscovery

/-- Model of the error value thrown by the HTTP layer, as inspected by
tmdb-service.ts: whether axios.isAxiosError holds, the optional error code,
the message string, and the response status (none when no response arrived). -/
structure AxiosLikeError where
  isAxiosError : Bool
  code : Option String
  message : String
  responseStatus : Option Nat
deriving DecidableEq, Repr

/-- Character-list test for: the second list occurs at the start of the first. -/
def startsWithChars : List Char → List Char → Bool
  | _, [] => true
  | [], _ :: _ => false
  | c :: cs, p :: ps => c = p && startsWithChars cs ps

/-- Character-list test for: the second list occurs somewhere inside the first. -/
def containsChars : List Char → List Char → Bool
  | [], p => p.isEmpty
  | c :: rest, p => startsWithChars (c :: rest) p || containsChars rest p

/-- Embeds the JavaScript test message.includes "aborted": the pattern
occurs as a contiguous substring of the message. -/
def mentionsAborted (msg : String) : Bool :=
  containsChars msg.data "aborted".data

/-- Embedding of isRetriableError (tmdb-service.ts lines 37-47): non-axios
errors are not retriable; no response at all is retriable; otherwise a
response status of at least 500 is retriable. -/
def isRetriableError (e : AxiosLikeError) : Bool :=
  if !e.isAxiosError then false
  else
    match e.responseStatus with
    | none => true
    | some st => 500 ≤ st

/-- Embedding of getReadableError (tmdb-service.ts lines 49-81). Returns
none exactly for cancelled requests (code CANCELLED or a message mentioning
aborted), and a user-facing message string otherwise. -/
def getReadableError (e : AxiosLikeError) : Option String :=
  if !e.isAxiosError then some "Unexpected error while contacting TMDB."
  else if e.code = some "CANCELLED" || mentionsAborted e.message then none
  else if e.code = some "ECONNABORTED" then some "Request timed out. Please try again."
  else
    match e.responseStatus with
    | none => some "Cannot connect to TMDB. Check internet access or DNS configuration."
    | some st =>
      if st = 401 then some "TMDB API key is invalid or unauthorized."
      else if st = 429 then some "TMDB rate limit reached. Please retry in a few seconds."
      else if 500 ≤ st then some "TMDB is temporarily unavailable. Please try again shortly."
      else some ("TMDB request failed (" ++ toString st ++ ").")

/-- Embedding of the while loop of requestWithRetry (tmdb-service.ts lines
83-110). The request is modelled as a function from the attempt index to
that attempt's outcome; the first argument counts the loop iterations still
permitted by the guard attempt less-or-equal retries (fuel zero is the
unreachable fall-through throw after the loop). The result pairs the overall
outcome (ok data, or the thrown error message) with the number of attempts
actually performed. -/
def requestWithRetryGo {T : Type} (req : Nat → Except AxiosLikeError T) (retries : Nat) :
    Nat → Nat → Except String T × Nat
  | 0, _ => (.error "Unexpected network state.", 0)
  | Nat.succ fuel, attempt =>
    match req attempt with
    | .ok v => (.ok v, 1)
    | .error e =>
      match getReadableError e with
      | none => (.error "Request cancelled", 1)
      | some msg =>
        if attempt = retries || !isRetriableError e then (.error msg, 1)
        else
          let r := requestWithRetryGo req retries fuel (attempt + 1)
          (r.1, r.2 + 1)

/-- Embedding of requestWithRetry itself: the loop started at attempt 0,
with the default of 2 retries, so the guard admits retries plus one rounds. -/
def requestWithRetry {T : Type} (req : Nat → Except AxiosLikeError T)
    (retries : Nat := 2) : Except String T × Nat :=
  requestWithRetryGo req retries (retries + 1) 0

/-- Entity record handled by the pagination hook. The source type
(src/types/movie.ts) is not part of the embedded core; only the stable
integer identifier is inspected by the embedded code, the title stands in
for the remaining payload fields. -/
structure Movie where
  id : Int
  title : String
deriving DecidableEq, Repr

/-- One step of the JavaScript Map built by mergeUniqueById: setting key k
to value v keeps the position of an existing key and overwrites its value,
and appends a fresh key at the end. -/
def insertMap : List (Int × Movie) → Int → Movie → List (Int × Movie)
  | [], k, v => [(k, v)]
  | (k', v') :: rest, k, v =>
    if k' = k then (k, v) :: rest else (k', v') :: insertMap rest k v

/-- The Map of mergeUniqueById after inserting every movie of l in order,
keyed by its id. -/
def buildMap (l : List Movie) : List (Int × Movie) :=
  l.foldl (fun m mv => insertMap m mv.id mv) []

/-- Embedding of mergeUniqueById (usePaginatedMovies.ts lines 13-19):
iterate base then incoming through a Map keyed by id, and return the values
in the Map's insertion order. -/
def mergeUniqueById (base incoming : List Movie) : List Movie :=
  (buildMap (base ++ incoming)).map Prod.snd

/-- Specification-side helper: first-seen deduplication of a key list,
carrying the set of keys already seen. -/
def firstSeenDedupAux : List Int → List Int → List Int
  | _, [] => []
  | seen, a :: as =>
    if a ∈ seen then firstSeenDedupAux seen as
    else a :: firstSeenDedupAux (a :: seen) as

/-- Specification-side helper: the key list with every key kept only at the
position of its first occurrence. -/
def firstSeenDedup (l : List Int) : List Int :=
  firstSeenDedupAux [] l

/-- Specification-side helper: the last record of l with identifier k. -/
def lastOcc : List Movie → Int → Option Movie
  | [], _ => none
  | mv :: rest, k =>
    match lastOcc rest k with
    | some m => some m
    | none => if mv.id = k then some mv else none

/-- Association-list lookup in the Map representation. -/
def lookupM : List (Int × Movie) → Int → Option Movie
  | [], _ => none
  | (k', v) :: rest, k => if k' = k then some v else lookupM rest k

/-- Fetch mode argument of loadPage (usePaginatedMovies.ts line 63). -/
inductive Mode
  | initialMode
  | refreshMode
  | appendMode
deriving DecidableEq, Repr

/-- Shape of a successful fetcher response (usePaginatedMovies.ts lines 4-11). -/
structure PageResp where
  page : Nat
  total_pages : Nat
  results : List Movie
deriving DecidableEq, Repr

/-- State owned by one usePaginatedMovies controller instance: the React
state cells (movies, page, totalPages, the three loading flags, error) and
the refs (loadingRef, fetchedPagesRef as a duplicate-free list, mountedRef,
abortControllerRef as the identifier of the current abort controller).
Fresh controller identifiers are drawn from nextId. -/
structure Ctrl where
  movies : List Movie
  page : Nat
  totalPages : Nat
  initialLoading : Bool
  refreshing : Bool
  loadingMore : Bool
  error : Option String
  loadingFlag : Bool
  fetchedPages : List Nat
  mounted : Bool
  currentCtrl : Option Nat
  nextId : Nat
deriving DecidableEq, Repr

/-- Controller state at mount (usePaginatedMovies.ts lines 22-34). -/
def initCtrl : Ctrl :=
  { movies := [], page := 0, totalPages := 1,
    initialLoading := false, refreshing := false, loadingMore := false,
    error := none, loadingFlag := false, fetchedPages := [],
    mounted := true, currentCtrl := none, nextId := 0 }

/-- Derived status of the controller, one of idle, loading-initial,
refreshing, loading-more, error, as exposed to the view layer. -/
inductive CtrlStatus
  | idle
  | loadingInitial
  | refreshingStatus
  | loadingMore
  | errored
deriving DecidableEq, Repr

/-- The status derived from a controller state: the active loading flag if
any, else error when an error message is recorded, else idle. -/
def ctrlStatus (s : Ctrl) : CtrlStatus :=
  if s.initialLoading then .loadingInitial
  else if s.refreshing then .refreshingStatus
  else if s.loadingMore then .loadingMore
  else if s.error.isSome then .errored
  else .idle

/-- Synchronous portion of loadPage (usePaginatedMovies.ts lines 62-84), up
to and including the setError null just before the await: the guard drops
the call when a fetch is in flight or the target page was already fetched;
otherwise the in-flight flag and the mode's loading flag are set, a fresh
abort controller is created and recorded, and the error field is cleared.
Returns the new state and the started controller identifier (none when the
call was dropped). -/
def loadPageStart (s : Ctrl) (nextPage : Nat) (mode : Mode) : Ctrl × Option Nat :=
  if s.loadingFlag || s.fetchedPages.contains nextPage then (s, none)
  else
    ({ s with
        loadingFlag := true,
        initialLoading := if mode = .initialMode then true else s.initialLoading,
        refreshing := if mode = .refreshMode then true else s.refreshing,
        loadingMore := if mode = .appendMode then true else s.loadingMore,
        currentCtrl := some s.nextId,
        nextId := s.nextId + 1,
        error := none },
      some s.nextId)

/-- The try and catch bodies of loadPage after the await returns
(usePaginatedMovies.ts lines 85-126), given whether that request's abort
signal was aborted and whether the component is still mounted (read from
the state). On success: return early when unmounted or aborted, else record
page and total pages, add the response page to the fetched set, and replace
or merge the movie list according to the mode. On failure: return early
when unmounted, skip the error update when aborted or the message mentions
aborted, else record the error message. -/
def applyOutcome (s : Ctrl) (mode : Mode) (aborted : Bool)
    (outcome : Except String PageResp) : Ctrl :=
  match outcome with
  | .ok resp =>
    if !s.mounted || aborted then s
    else
      { s with
          page := resp.page,
          totalPages := resp.total_pages,
          fetchedPages :=
            if s.fetchedPages.contains resp.page then s.fetchedPages
            else s.fetchedPages ++ [resp.page],
          movies :=
            if mode = .appendMode then mergeUniqueById s.movies resp.results
            else mergeUniqueById [] resp.results }
  | .error msg =>
    if !s.mounted then s
    else if aborted || mentionsAborted msg then s
    else { s with error := some msg }

/-- The finally block of loadPage (usePaginatedMovies.ts lines 127-139): it
runs on every exit path; when still mounted and the finishing request's
controller is still the current one, the in-flight flag and all three
loading flags are cleared. -/
def applyFinally (s : Ctrl) (c : Nat) : Ctrl :=
  if !s.mounted then s
  else if s.currentCtrl = some c then
    { s with loadingFlag := false, initialLoading := false,
             refreshing := false, loadingMore := false }
  else s

/-- Completion of an in-flight loadPage call: the try or catch body
followed by the finally block. -/
def loadPageFinish (s : Ctrl) (c : Nat) (mode : Mode) (aborted : Bool)
    (outcome : Except String PageResp) : Ctrl :=
  applyFinally (applyOutcome s mode aborted outcome) c

/-- Embedding of resetAndLoad (usePaginatedMovies.ts lines 144-149): clear
the fetched-pages set, reset page to 0 and totalPages to 1, then call
loadPage for page 1 in initial mode. -/
def resetAndLoad (s : Ctrl) : Ctrl × Option Nat :=
  loadPageStart { s with fetchedPages := [], page := 0, totalPages := 1 } 1 .initialMode

/-- Embedding of refresh (usePaginatedMovies.ts lines 151-154): clear the
fetched-pages set, then call loadPage for page 1 in refresh mode. -/
def refreshCtrl (s : Ctrl) : Ctrl × Option Nat :=
  loadPageStart { s with fetchedPages := [] } 1 .refreshMode

/-- Embedding of loadNext (usePaginatedMovies.ts lines 156-162): a no-op
when page has reached totalPages or a fetch is in flight, otherwise a
loadPage call for page plus one in append mode. -/
def loadNext (s : Ctrl) : Ctrl × Option Nat :=
  if s.totalPages ≤ s.page || s.loadingFlag then (s, none)
  else loadPageStart s (s.page + 1) .appendMode

/-- Events driving one controller instance: the public calls, completion of
the in-flight request (with the abort flag observed by its handler and the
request outcome), and view teardown (which flips the mounted ref; the
teardown cleanup also aborts every outstanding request, so completions
after teardown observe aborted signals). -/
inductive PEvent
  | callLoad (p : Nat) (m : Mode)
  | callReset
  | callRefresh
  | callNext
  | complete (aborted : Bool) (outcome : Except String PageResp)
  | unmount

/-- Configuration of the event semantics: the controller state plus the
identifiers and modes of the requests currently in flight (the model keeps
a list so that the single-flight property is provable, not assumed). -/
structure Conf where
  ctrl : Ctrl
  inFlight : List (Nat × Mode)

/-- One step of the controller semantics. Calls start requests through the
embedded operations; complete finishes the oldest in-flight request through
loadPageFinish; unmount clears the mounted ref. -/
def pstep (c : Conf) (e : PEvent) : Conf :=
  match e with
  | .callLoad p m =>
    match loadPageStart c.ctrl p m with
    | (s, some cid) => ⟨s, c.inFlight ++ [(cid, m)]⟩
    | (s, none) => ⟨s, c.inFlight⟩
  | .callReset =>
    match resetAndLoad c.ctrl with
    | (s, some cid) => ⟨s, c.inFlight ++ [(cid, .initialMode)]⟩
    | (s, none) => ⟨s, c.inFlight⟩
  | .callRefresh =>
    match refreshCtrl c.ctrl with
    | (s, some cid) => ⟨s, c.inFlight ++ [(cid, .refreshMode)]⟩
    | (s, none) => ⟨s, c.inFlight⟩
  | .callNext =>
    match loadNext c.ctrl with
    | (s, some cid) => ⟨s, c.inFlight ++ [(cid, .appendMode)]⟩
    | (s, none) => ⟨s, c.inFlight⟩
  | .complete aborted outcome =>
    match c.inFlight with
    | [] => c
    | (cid, m) :: rest => ⟨loadPageFinish c.ctrl cid m aborted outcome, rest⟩
  | .unmount => ⟨{ c.ctrl with mounted := false }, c.inFlight⟩

/-- Initial configuration: freshly mounted controller, nothing in flight. -/
def initConf : Conf := ⟨initCtrl, []⟩

/-- Run of the controller semantics over an event list. -/
def runP (c : Conf) (es : List PEvent) : Conf :=
  es.foldl pstep c

/-- Tab identifiers of the home screen (AppNavigator.tsx line 92). -/
inductive Tab
  | popular
  | search
deriving DecidableEq, Repr

/-- View descriptors of the navigation stack (AppNavigator.tsx lines 22-25). -/
inductive Route
  | home
  | movieDetails (movieId : Int)
  | postReview (movieId : Int) (movieTitle : String)
deriving DecidableEq, Repr

/-- The stack mutations that the debounced entry points schedule: popping
the top route, pushing a route, or switching the active tab. -/
inductive NavAction
  | popTop
  | pushRoute (r : Route)
  | tabSwitch (t : Tab)
deriving DecidableEq, Repr

/-- Navigator state (AppNavigator.tsx lines 90-98): the route stack (last
element on top), the tab history, the active tab, the back lock ref, and
the single pending debounced navigation action (the one navigation timeout,
none when no action is scheduled). -/
structure Nav where
  stack : List Route
  tabHistory : List Tab
  activeTab : Tab
  backLock : Bool
  pendingNav : Option NavAction
deriving DecidableEq, Repr

/-- Navigator state at application start: stack Home only, empty tab
history, popular tab active, lock released, nothing scheduled. -/
def initNav : Nav :=
  { stack := [.home], tabHistory := [], activeTab := .popular,
    backLock := false, pendingNav := none }

/-- Embedding of scheduleNav (AppNavigator.tsx lines 138-146): clear any
previously scheduled timeout and schedule the new action in its place. -/
def scheduleNav (s : Nav) (a : NavAction) : Nav :=
  { s with pendingNav := some a }

/-- The state change a scheduled action performs when its timer fires:
popTop removes the top route unless the stack has at most one entry
(goBack's updater, lines 154-167); pushRoute appends (openMovie and
openPostReview updaters); tabSwitch pushes the previous active tab onto the
tab history and activates the new tab, unless it is already active
(handleTabPress updater, lines 172-189). -/
def applyNavAction (s : Nav) (a : NavAction) : Nav :=
  match a with
  | .popTop =>
    if s.stack.length ≤ 1 then s else { s with stack := s.stack.dropLast }
  | .pushRoute r => { s with stack := s.stack ++ [r] }
  | .tabSwitch t =>
    if t = s.activeTab then s
    else { s with tabHistory := s.tabHistory ++ [s.activeTab], activeTab := t }

/-- Firing of the navigation timeout: the pending action, if any, executes
against the current state and the timeout slot is cleared. -/
def fireNavTimer (s : Nav) : Nav :=
  match s.pendingNav with
  | none => s
  | some a => { applyNavAction s a with pendingNav := none }

/-- Embedding of goBack (AppNavigator.tsx lines 148-168): schedules a pop. -/
def goBack (s : Nav) : Nav :=
  scheduleNav s .popTop

/-- Embedding of openMovie (AppNavigator.tsx lines 243-248): schedules a
push of the movie-details route. -/
def openMovie (s : Nav) (movieId : Int) : Nav :=
  scheduleNav s (.pushRoute (.movieDetails movieId))

/-- Embedding of openPostReview (AppNavigator.tsx lines 251-259): schedules
a push of the post-review route. -/
def openPostReview (s : Nav) (movieId : Int) (movieTitle : String) : Nav :=
  scheduleNav s (.pushRoute (.postReview movieId movieTitle))

/-- Embedding of handleTabPress (AppNavigator.tsx lines 170-190): schedules
a tab switch. -/
def handleTabPress (s : Nav) (t : Tab) : Nav :=
  scheduleNav s (.tabSwitch t)

/-- The route on top of the stack, as read through historyRef. -/
def topRoute (s : Nav) : Route :=
  s.stack.getLastD .home

/-- Embedding of handleHardwareBack (AppNavigator.tsx lines 193-227). When
the lock is held the press is consumed unchanged. Otherwise the lock is
taken; off Home a pop is scheduled through goBack and the press is
consumed; on Home with tab history the last tab is restored synchronously
and the press is consumed; otherwise the press is not consumed. The lock
release is deferred to the next animation frame, so the returned state
still holds the lock. -/
def handleHardwareBack (s : Nav) : Nav × Bool :=
  if s.backLock then (s, true)
  else if topRoute s ≠ .home then
    (goBack { s with backLock := true }, true)
  else if s.tabHistory ≠ [] then
    ({ s with
        backLock := true
        tabHistory := s.tabHistory.dropLast
        activeTab := s.tabHistory.getLastD s.activeTab }, true)
  else ({ s with backLock := true }, false)

/-- The deferred back-lock release scheduled through requestAnimationFrame
(AppNavigator.tsx lines 116-120). -/
def frameTick (s : Nav) : Nav :=
  { s with backLock := false }

/-- The debounced navigation entry points, as call descriptors. -/
inductive NavCall
  | goBackC
  | openMovieC (movieId : Int)
  | openPostReviewC (movieId : Int) (movieTitle : String)
  | tabPressC (t : Tab)
deriving DecidableEq, Repr

/-- The action each entry point schedules. -/
def callAction : NavCall → NavAction
  | .goBackC => .popTop
  | .openMovieC i => .pushRoute (.movieDetails i)
  | .openPostReviewC i t => .pushRoute (.postReview i t)
  | .tabPressC t => .tabSwitch t

/-- Dispatch of an entry-point call to the embedded function. -/
def applyCall (s : Nav) (c : NavCall) : Nav :=
  match c with
  | .goBackC => goBack s
  | .openMovieC i => openMovie s i
  | .openPostReviewC i t => openPostReview s i t
  | .tabPressC t => handleTabPress s t

/-- Every external event that can reach the navigator. -/
inductive NavEvent
  | call (c : NavCall)
  | hardwareBack
  | fireTimer
  | frame

/-- One step of the navigator semantics. -/
def navStep (s : Nav) (e : NavEvent) : Nav :=
  match e with
  | .call c => applyCall s c
  | .hardwareBack => (handleHardwareBack s).1
  | .fireTimer => fireNavTimer s
  | .frame => frameTick s

/-- Run of the navigator semantics over an event list. -/
def runNav (s : Nav) (es : List NavEvent) : Nav :=
  es.foldl navStep s

/-- Concrete torn-down controller state with one in-flight initial load. -/
def exTornDown : Ctrl :=
  { initCtrl with
      mounted := false
      movies := [⟨1, "A"⟩]
      loadingFlag := true
      initialLoading := true }

/-- Concrete mounted controller state with one in-flight append load. -/
def exAppending : Ctrl :=
  { initCtrl with
      currentCtrl := some 4
      loadingFlag := true
      loadingMore := true }

/-- Concrete controller state holding previously loaded items. -/
def exLoaded : Ctrl :=
  { initCtrl with
      movies := [⟨7, "Old"⟩, ⟨8, "Older"⟩]
      page := 4
      totalPages := 9
      fetchedPages := [1, 2, 3, 4]
      error := some "TMDB rate limit reached. Please retry in a few seconds." }

/-- Invariant of the controller semantics: at most one request is in
flight, and whenever one is, the in-flight flag is set. -/
def PInv (c : Conf) : Prop :=
  c.inFlight.length ≤ 1 ∧ (c.inFlight = [] ∨ c.ctrl.loadingFlag = true)

/-- Invariant of the navigator semantics: the stack is non-empty and its
first element is Home. -/
def NavInv (s : Nav) : Prop :=
  s.stack ≠ [] ∧ s.stack.head? = some Route.home

/-- Concrete navigator state showing the details screen. -/
def exNavDetails : Nav :=
  { initNav with stack := [Route.home, Route.movieDetails 3] }

/-- Concrete navigator state showing the details screen with the back lock
held. -/
def exNavLocked : Nav :=
  { initNav with
      stack := [Route.home, Route.movieDetails 3]
      backLock := true }

/-- Concrete navigator state showing another details screen. -/
def exNavNine : Nav :=
  { initNav with stack := [Route.home, Route.movieDetails 9] }

/-- The parametric request-failed message differs from the cancellation
sentinel, by a length count. -/
theorem tmdbFailedMsg_ne_cancelled (st : Nat) :
    ("TMDB request failed (" ++ toString st ++ ")." : String) ≠ "Request cancelled" := by
  intro h
  have hl := congrArg String.length h
  rw [String.length_append, String.length_append] at hl
  have h1 : ("TMDB request failed (" : String).length = 21 := rfl
  have h2 : ((")." : String)).length = 2 := rfl
  have h3 : (("Request cancelled" : String)).length = 17 := rfl
  rw [h1, h2, h3] at hl
  omega

/-- No user-facing message produced by getReadableError equals the
cancellation sentinel thrown by requestWithRetry. -/
theorem getReadableError_ne_cancelled (e : AxiosLikeError) :
    getReadableError e ≠ some "Request cancelled" := by
  unfold getReadableError
  repeat' split
  all_goals intro h
  all_goals
    first
      | exact Option.noConfusion h
      | (injection h with h'
         first
           | exact absurd h' (by decide)
           | exact tmdbFailedMsg_ne_cancelled _ h')

/-- Unfolding of one loop round of the retry transport. -/
theorem requestWithRetryGo_succ {T : Type} (req : Nat → Except AxiosLikeError T)
    (retries fuel attempt : Nat) :
    requestWithRetryGo req retries (fuel + 1) attempt =
      (match req attempt with
       | .ok v => (.ok v, 1)
       | .error e =>
         match getReadableError e with
         | none => (.error "Request cancelled", 1)
         | some msg =>
           if attempt = retries || !isRetriableError e then (.error msg, 1)
           else
             let r := requestWithRetryGo req retries fuel (attempt + 1)
             (r.1, r.2 + 1)) := rfl

/-- With an aborted signal, the try and catch bodies of loadPage leave the
state untouched. -/
theorem applyOutcome_aborted (s : Ctrl) (m : Mode) (o : Except String PageResp) :
    applyOutcome s m true o = s := by
  cases o <;> simp [applyOutcome]

/-- After teardown neither the try and catch bodies nor the finally block
change the state. -/
theorem applyOutcome_unmounted (s : Ctrl) (m : Mode) (ab : Bool)
    (o : Except String PageResp) (h : s.mounted = false) :
    applyOutcome s m ab o = s := by
  cases o <;> simp [applyOutcome, h]

/-- The finally block is a no-op once the component is unmounted. -/
theorem applyFinally_unmounted (s : Ctrl) (c : Nat) (h : s.mounted = false) :
    applyFinally s c = s := by
  unfold applyFinally
  simp [h]

/-- The finally block only touches the in-flight flag and the loading
flags: every data field survives it. -/
theorem applyFinally_fields (s : Ctrl) (c : Nat) :
    (applyFinally s c).movies = s.movies ∧
    (applyFinally s c).page = s.page ∧
    (applyFinally s c).totalPages = s.totalPages ∧
    (applyFinally s c).fetchedPages = s.fetchedPages ∧
    (applyFinally s c).error = s.error := by
  refine ⟨?_, ?_, ?_, ?_, ?_⟩ <;> (unfold applyFinally; repeat' split) <;> rfl

/-- C1: for every request issued through the retry transport, a cancelled
attempt (one the transport classifies as cancelled, so getReadableError
yields none) fails immediately: the transport returns the sentinel outcome
Request cancelled after exactly one attempt, with no retry. That sentinel
is distinguishable from every user-facing error message getReadableError
can produce. Moreover no code path converts a cancelled request into an
error-state update: a loadPage completion whose abort signal fired always
leaves the controller error field unchanged. -/
theorem requestWithRetry_cancelled_immediate {T : Type}
    (req : Nat → Except AxiosLikeError T) (retries : Nat) (e : AxiosLikeError)
    (h0 : req 0 = .error e) (hc : getReadableError e = none) :
    requestWithRetry req retries = (.error "Request cancelled", 1) ∧
    (∀ e' : AxiosLikeError, getReadableError e' ≠ some "Request cancelled") ∧
    (∀ (s : Ctrl) (c : Nat) (m : Mode) (outcome : Except String PageResp),
      (loadPageFinish s c m true outcome).error = s.error) := by
  refine ⟨?_, getReadableError_ne_cancelled, ?_⟩
  · simp only [requestWithRetry, requestWithRetryGo_succ, h0, hc]
  · intro s c m outcome
    unfold loadPageFinish
    rw [applyOutcome_aborted]
    exact (applyFinally_fields s c).2.2.2.2

/-- Closed instance of the C1 theorem at a concrete cancelled request. -/
theorem requestWithRetry_cancelled_immediate_witness :
    (fun _ : Nat => (Except.error ⟨true, some "CANCELLED", "canceled", none⟩ :
        Except AxiosLikeError Nat)) 0 =
      Except.error ⟨true, some "CANCELLED", "canceled", none⟩ ∧
    getReadableError ⟨true, some "CANCELLED", "canceled", none⟩ = none ∧
    requestWithRetry (T := Nat)
        (fun _ => .error ⟨true, some "CANCELLED", "canceled", none⟩) 2 =
      (Except.error "Request cancelled", 1) :=
  ⟨rfl, rfl,
    (requestWithRetry_cancelled_immediate
      (fun _ => .error ⟨true, some "CANCELLED", "canceled", none⟩) 2
      ⟨true, some "CANCELLED", "canceled", none⟩ rfl rfl).1⟩

/-- C5: a fetch cancelled before completion (its abort controller aborted;
aborts are issued only by the teardown cleanup, which clears the mounted
ref first) leaves the whole controller state unchanged at its completion,
so status, items, page, totalPages and the fetched-pages set are untouched
and no error is populated; and independently of the mounted ref, a
completion with an aborted signal never changes the data fields or the
error field. -/
theorem cancelledFetch_silent (s : Ctrl) (c : Nat) (m : Mode)
    (outcome : Except String PageResp) :
    (s.mounted = false → loadPageFinish s c m true outcome = s) ∧
    (loadPageFinish s c m true outcome).movies = s.movies ∧
    (loadPageFinish s c m true outcome).page = s.page ∧
    (loadPageFinish s c m true outcome).totalPages = s.totalPages ∧
    (loadPageFinish s c m true outcome).fetchedPages = s.fetchedPages ∧
    (loadPageFinish s c m true outcome).error = s.error ∧
    (s.mounted = false → ctrlStatus (loadPageFinish s c m true outcome) = ctrlStatus s) := by
  have ho : loadPageFinish s c m true outcome = applyFinally s c := by
    unfold loadPageFinish
    rw [applyOutcome_aborted]
  have hf := applyFinally_fields s c
  refine ⟨?_, ?_, ?_, ?_, ?_, ?_, ?_⟩
  · intro hm
    rw [ho, applyFinally_unmounted s c hm]
  · rw [ho]; exact hf.1
  · rw [ho]; exact hf.2.1
  · rw [ho]; exact hf.2.2.1
  · rw [ho]; exact hf.2.2.2.1
  · rw [ho]; exact hf.2.2.2.2
  · intro hm
    rw [ho, applyFinally_unmounted s c hm]

/-- Closed instance of the C5 theorem: a fetch aborted by teardown resolves
silently on a concrete state. -/
theorem cancelledFetch_silent_witness :
    exTornDown.mounted = false ∧
    loadPageFinish exTornDown 0 .initialMode true (.ok ⟨1, 2, [⟨2, "B"⟩]⟩) = exTornDown :=
  ⟨rfl, (cancelledFetch_silent exTornDown 0 .initialMode (.ok ⟨1, 2, [⟨2, "B"⟩]⟩)).1 rfl⟩

/-- C6: a fetch that fails for a reason other than cancellation (abort
signal clear and message not mentioning aborted) records the error message
and puts the controller in the error status, while items, page, totalPages
and the fetched-pages set are unchanged; and every fetch call that is not
dropped clears the error field. -/
theorem fetchFailure_recordsError (s : Ctrl) (c : Nat) (m : Mode) (msg : String)
    (hm : s.mounted = true) (hab : mentionsAborted msg = false)
    (hcur : s.currentCtrl = some c) :
    (loadPageFinish s c m false (.error msg)).error = some msg ∧
    ctrlStatus (loadPageFinish s c m false (.error msg)) = .errored ∧
    (loadPageFinish s c m false (.error msg)).movies = s.movies ∧
    (loadPageFinish s c m false (.error msg)).page = s.page ∧
    (loadPageFinish s c m false (.error msg)).totalPages = s.totalPages ∧
    (loadPageFinish s c m false (.error msg)).fetchedPages = s.fetchedPages ∧
    (∀ (s₂ s₃ : Ctrl) (p : Nat) (m₂ : Mode) (cid : Nat),
      loadPageStart s₂ p m₂ = (s₃, some cid) → s₃.error = none) := by
  refine ⟨?_, ?_, ?_, ?_, ?_, ?_, ?_⟩
  · simp [loadPageFinish, applyOutcome, applyFinally, hm, hab, hcur]
  · simp [loadPageFinish, applyOutcome, applyFinally, ctrlStatus, hm, hab, hcur]
  · simp [loadPageFinish, applyOutcome, applyFinally, hm, hab, hcur]
  · simp [loadPageFinish, applyOutcome, applyFinally, hm, hab, hcur]
  · simp [loadPageFinish, applyOutcome, applyFinally, hm, hab, hcur]
  · simp [loadPageFinish, applyOutcome, applyFinally, hm, hab, hcur]
  · intro s₂ s₃ p m₂ cid h
    unfold loadPageStart at h
    split at h
    · injection h with hA hB
      exact Option.noConfusion hB
    · injection h with hA hB
      rw [← hA]

/-- Closed instance of the C6 theorem at a concrete failing fetch. -/
theorem fetchFailure_recordsError_witness :
    exAppending.mounted = true ∧
    mentionsAborted "TMDB is temporarily unavailable. Please try again shortly." = false ∧
    (loadPageFinish exAppending 4 .appendMode false
        (.error "TMDB is temporarily unavailable. Please try again shortly.")).error =
      some "TMDB is temporarily unavailable. Please try again shortly." :=
  ⟨rfl, rfl,
    (fetchFailure_recordsError exAppending 4 .appendMode
      "TMDB is temporarily unavailable. Please try again shortly."
      rfl rfl rfl).1⟩

/-- Inserting an unseen key appends the entry at the end of the map. -/
theorem insertMap_not_mem : ∀ (m : List (Int × Movie)) (k : Int) (v : Movie),
    k ∉ m.map Prod.fst → insertMap m k v = m ++ [(k, v)]
  | [], _, _, _ => rfl
  | (k', v') :: rest, k, v, h => by
    have hne : ¬ k' = k := by
      intro he
      exact h (by simp [he])
    have hrest : k ∉ rest.map Prod.fst := by
      intro hmem
      exact h (by simp [hmem])
    unfold insertMap
    rw [if_neg hne, insertMap_not_mem rest k v hrest]
    rfl

/-- Folding a list of movies with pairwise distinct identifiers, none of
which is already a key of the accumulator, appends exactly those movies to
the value sequence. -/
theorem foldl_insertMap_nodup : ∀ (l : List Movie) (acc : List (Int × Movie)),
    (l.map Movie.id).Nodup →
    (∀ k ∈ l.map Movie.id, k ∉ acc.map Prod.fst) →
    (l.foldl (fun m mv => insertMap m mv.id mv) acc).map Prod.snd = acc.map Prod.snd ++ l
  | [], acc, _, _ => by simp
  | mv :: rest, acc, hd, hdisj => by
    rw [List.foldl_cons]
    have hmv : mv.id ∉ acc.map Prod.fst := hdisj mv.id (by simp)
    rw [insertMap_not_mem acc mv.id mv hmv]
    have hdn : mv.id ∉ rest.map Movie.id ∧ (rest.map Movie.id).Nodup := by
      rw [List.map_cons] at hd
      exact List.nodup_cons.mp hd
    have hdisj' : ∀ k ∈ rest.map Movie.id, k ∉ (acc ++ [(mv.id, mv)]).map Prod.fst := by
      intro k hk
      simp only [List.map_append, List.mem_append, List.map_cons, List.map_nil,
        List.mem_singleton, not_or]
      constructor
      · exact hdisj k (by simp [hk])
      · intro he
        rw [he] at hk
        exact hdn.1 hk
    rw [foldl_insertMap_nodup rest (acc ++ [(mv.id, mv)]) hdn.2 hdisj']
    simp

/-- Merging a page with pairwise distinct identifiers into the empty list
returns exactly that page. -/
theorem mergeUniqueById_nil_of_nodup (l : List Movie)
    (h : (l.map Movie.id).Nodup) : mergeUniqueById [] l = l := by
  unfold mergeUniqueById buildMap
  rw [List.nil_append]
  simpa using foldl_insertMap_nodup l [] h (by simp)

/-- C2: from a state with no fetch in flight, resetAndLoad clears the
fetched-pages set, resets page to 0 and totalPages to 1, and starts a
page-1 fetch in initial mode; when that fetch completes successfully (still
mounted, not aborted, page-1 results with pairwise distinct identifiers)
the items are exactly the first page's results, the previous items being
discarded rather than merged. -/
theorem resetAndLoad_loadsFirstPage (s : Ctrl) (resp : PageResp)
    (hflag : s.loadingFlag = false) (hm : s.mounted = true)
    (hnodup : (resp.results.map Movie.id).Nodup) :
    (resetAndLoad s).2 = some s.nextId ∧
    (resetAndLoad s).1.fetchedPages = [] ∧
    (resetAndLoad s).1.page = 0 ∧
    (resetAndLoad s).1.totalPages = 1 ∧
    (resetAndLoad s).1.initialLoading = true ∧
    (loadPageFinish (resetAndLoad s).1 s.nextId .initialMode false (.ok resp)).movies =
      resp.results := by
  have hmerge := mergeUniqueById_nil_of_nodup resp.results hnodup
  refine ⟨?_, ?_, ?_, ?_, ?_, ?_⟩
  · simp [resetAndLoad, loadPageStart, hflag]
  · simp [resetAndLoad, loadPageStart, hflag]
  · simp [resetAndLoad, loadPageStart, hflag]
  · simp [resetAndLoad, loadPageStart, hflag]
  · simp [resetAndLoad, loadPageStart, hflag]
  · simp [resetAndLoad, loadPageStart, loadPageFinish, applyOutcome, applyFinally,
      hflag, hm, hmerge]

/-- Closed instance of the C2 theorem: resetting a filled controller and
completing the page-1 fetch leaves exactly the first page's results. -/
theorem resetAndLoad_loadsFirstPage_witness :
    exLoaded.loadingFlag = false ∧
    exLoaded.mounted = true ∧
    (loadPageFinish (resetAndLoad exLoaded).1 exLoaded.nextId .initialMode false
        (.ok ⟨1, 9, [⟨1, "A"⟩, ⟨2, "B"⟩]⟩)).movies = [⟨1, "A"⟩, ⟨2, "B"⟩] :=
  ⟨rfl, rfl,
    (resetAndLoad_loadsFirstPage exLoaded ⟨1, 9, [⟨1, "A"⟩, ⟨2, "B"⟩]⟩
      rfl rfl (by decide)).2.2.2.2.2⟩

/-- A fetch call whose guard fires (fetch in flight, or target page already
fetched) is dropped with the state unchanged. -/
theorem loadPageStart_dropped (s : Ctrl) (p : Nat) (m : Mode)
    (h : s.loadingFlag = true ∨ s.fetchedPages.contains p = true) :
    loadPageStart s p m = (s, none) := by
  have hcond : (s.loadingFlag || s.fetchedPages.contains p) = true := by
    rcases h with h | h
    · rw [h]
      exact Bool.true_or _
    · rw [h]
      exact Bool.or_true _
  unfold loadPageStart
  rw [if_pos hcond]

/-- A dropped fetch call returns the state unchanged. -/
theorem loadPageStart_none (s s' : Ctrl) (p : Nat) (m : Mode)
    (h : loadPageStart s p m = (s', none)) : s' = s := by
  unfold loadPageStart at h
  split at h
  · injection h with hA hB
    exact hA.symm
  · injection h with hA hB
    exact Option.noConfusion hB

/-- A fetch call that actually starts found the in-flight flag clear and
sets it. -/
theorem loadPageStart_some_flag (s s' : Ctrl) (p : Nat) (m : Mode) (cid : Nat)
    (h : loadPageStart s p m = (s', some cid)) :
    s.loadingFlag = false ∧ s'.loadingFlag = true := by
  unfold loadPageStart at h
  split at h
  · injection h with hA hB
    exact Option.noConfusion hB
  · next hcond =>
    injection h with hA hB
    simp only [Bool.or_eq_true, not_or, Bool.not_eq_true] at hcond
    refine ⟨hcond.1, ?_⟩
    rw [← hA]

/-- A dropped start preserves the invariant. -/
theorem PInv_start_none (c : Conf) (s₀ s' : Ctrl) (p : Nat) (m : Mode)
    (hf : s₀.loadingFlag = c.ctrl.loadingFlag)
    (h : loadPageStart s₀ p m = (s', none)) (hinv : PInv c) :
    PInv ⟨s', c.inFlight⟩ := by
  have hs := loadPageStart_none _ _ _ _ h
  subst hs
  refine ⟨hinv.1, ?_⟩
  rcases hinv.2 with h2 | h2
  · exact Or.inl h2
  · exact Or.inr (by rw [hf]; exact h2)

/-- A successful start finds nothing in flight, so afterwards exactly one
request is in flight and the flag is set. -/
theorem PInv_start_some (c : Conf) (s₀ s' : Ctrl) (p : Nat) (m : Mode) (cid : Nat)
    (hf : s₀.loadingFlag = c.ctrl.loadingFlag)
    (h : loadPageStart s₀ p m = (s', some cid)) (hinv : PInv c) :
    PInv ⟨s', c.inFlight ++ [(cid, m)]⟩ := by
  have hs := loadPageStart_some_flag _ _ _ _ _ h
  rw [hf] at hs
  have hempty : c.inFlight = [] := by
    rcases hinv.2 with h2 | h2
    · exact h2
    · exact absurd h2 (by simp [hs.1])
  rw [hempty]
  exact ⟨by simp, Or.inr hs.2⟩

/-- loadNext either drops the call or delegates to loadPage for the next
page in append mode. -/
theorem loadNext_cases (s : Ctrl) :
    loadNext s = (s, none) ∨ loadNext s = loadPageStart s (s.page + 1) .appendMode := by
  unfold loadNext
  split
  · exact Or.inl rfl
  · exact Or.inr rfl

/-- Every event of the controller semantics preserves the single-flight
invariant. -/
theorem pstep_PInv (c : Conf) (e : PEvent) (h : PInv c) : PInv (pstep c e) := by
  cases e with
  | callLoad p m =>
    rcases hp : loadPageStart c.ctrl p m with ⟨s', r⟩
    cases r with
    | none => simpa [pstep, hp] using PInv_start_none c c.ctrl s' p m rfl hp h
    | some cid => simpa [pstep, hp] using PInv_start_some c c.ctrl s' p m cid rfl hp h
  | callReset =>
    rcases hp : resetAndLoad c.ctrl with ⟨s', r⟩
    have hp' : loadPageStart
        { c.ctrl with fetchedPages := [], page := 0, totalPages := 1 } 1 .initialMode =
        (s', r) := hp
    cases r with
    | none =>
      simpa [pstep, hp] using PInv_start_none c
        { c.ctrl with fetchedPages := [], page := 0, totalPages := 1 } s' 1 .initialMode rfl hp' h
    | some cid =>
      simpa [pstep, hp] using PInv_start_some c
        { c.ctrl with fetchedPages := [], page := 0, totalPages := 1 } s' 1 .initialMode cid
        rfl hp' h
  | callRefresh =>
    rcases hp : refreshCtrl c.ctrl with ⟨s', r⟩
    have hp' : loadPageStart { c.ctrl with fetchedPages := [] } 1 .refreshMode = (s', r) := hp
    cases r with
    | none =>
      simpa [pstep, hp] using PInv_start_none c
        { c.ctrl with fetchedPages := [] } s' 1 .refreshMode rfl hp' h
    | some cid =>
      simpa [pstep, hp] using PInv_start_some c
        { c.ctrl with fetchedPages := [] } s' 1 .refreshMode cid rfl hp' h
  | callNext =>
    rcases loadNext_cases c.ctrl with hn | hn
    · simpa [pstep, hn] using h
    · rcases hp : loadPageStart c.ctrl (c.ctrl.page + 1) .appendMode with ⟨s', r⟩
      rw [hp] at hn
      cases r with
      | none =>
        simpa [pstep, hn] using PInv_start_none c c.ctrl s' (c.ctrl.page + 1) .appendMode rfl hp h
      | some cid =>
        simpa [pstep, hn] using
          PInv_start_some c c.ctrl s' (c.ctrl.page + 1) .appendMode cid rfl hp h
  | complete ab outcome =>
    rcases hc : c.inFlight with _ | ⟨⟨cid, m⟩, rest⟩
    · simpa [pstep, hc] using h
    · have h1 := h.1
      rw [hc] at h1
      have hrest : rest = [] := by
        cases rest with
        | nil => rfl
        | cons x xs => simp at h1
      subst hrest
      simp only [pstep, hc]
      exact ⟨by simp, Or.inl rfl⟩
  | unmount =>
    refine ⟨h.1, ?_⟩
    rcases h.2 with h2 | h2
    · exact Or.inl h2
    · exact Or.inr h2

/-- The invariant holds along every run from an invariant state. -/
theorem runP_PInv : ∀ (es : List PEvent) (c : Conf), PInv c → PInv (runP c es)
  | [], _, h => h
  | _ :: es, c, h => runP_PInv es _ (pstep_PInv c _ h)

/-- C3: along every event sequence from the initial controller state at
most one fetch is in flight; a fetch call is silently dropped, leaving the
whole state unchanged, whenever a fetch is in flight or its target page is
already in the fetched-pages set; loadNext is such a no-op when page has
reached totalPages or a fetch is in flight, and otherwise issues the fetch
of page plus one in append mode. -/
theorem singleFlight_and_drops :
    (∀ es : List PEvent, (runP initConf es).inFlight.length ≤ 1) ∧
    (∀ (s : Ctrl) (p : Nat) (m : Mode),
      s.loadingFlag = true ∨ s.fetchedPages.contains p = true →
      loadPageStart s p m = (s, none)) ∧
    (∀ s : Ctrl, s.totalPages ≤ s.page ∨ s.loadingFlag = true → loadNext s = (s, none)) ∧
    (∀ s : Ctrl, ¬ s.totalPages ≤ s.page → s.loadingFlag = false →
      loadNext s = loadPageStart s (s.page + 1) .appendMode) := by
  refine ⟨?_, loadPageStart_dropped, ?_, ?_⟩
  · intro es
    exact (runP_PInv es initConf ⟨by simp [initConf], Or.inl rfl⟩).1
  · intro s h
    rcases h with h | h
    · have hd : decide (s.totalPages ≤ s.page) = true := decide_eq_true h
      simp [loadNext, hd]
    · simp [loadNext, h]
  · intro s hle hflag
    have hd : decide (s.totalPages ≤ s.page) = false := decide_eq_false hle
    simp [loadNext, hd, hflag]

/-- Closed instance of the C3 theorem: a run with two overlapping calls
keeps at most one request in flight, and the drop rules at concrete
states. -/
theorem singleFlight_and_drops_witness :
    (runP initConf [PEvent.callLoad 1 .initialMode,
        PEvent.callLoad 2 .appendMode]).inFlight.length ≤ 1 ∧
    ({ initCtrl with loadingFlag := true } : Ctrl).loadingFlag = true ∧
    loadPageStart { initCtrl with loadingFlag := true } 3 .appendMode =
      ({ initCtrl with loadingFlag := true }, none) ∧
    loadNext { initCtrl with loadingFlag := true } =
      ({ initCtrl with loadingFlag := true }, none) ∧
    loadNext { initCtrl with totalPages := 5, page := 2 } =
      loadPageStart { initCtrl with totalPages := 5, page := 2 } 3 .appendMode :=
  ⟨singleFlight_and_drops.1 _,
   rfl,
   singleFlight_and_drops.2.1 _ 3 .appendMode (Or.inl rfl),
   singleFlight_and_drops.2.2.1 _ (Or.inr rfl),
   singleFlight_and_drops.2.2.2 { initCtrl with totalPages := 5, page := 2 } (by decide) rfl⟩

/-- Unfolding of firstSeenDedupAux on a cons cell. -/
theorem firstSeenDedupAux_cons (seen : List Int) (a : Int) (as : List Int) :
    firstSeenDedupAux seen (a :: as) =
      if a ∈ seen then firstSeenDedupAux seen as
      else a :: firstSeenDedupAux (a :: seen) as := rfl

/-- Unfolding of lastOcc on a cons cell. -/
theorem lastOcc_cons (mv : Movie) (rest : List Movie) (k : Int) :
    lastOcc (mv :: rest) k =
      match lastOcc rest k with
      | some m => some m
      | none => if mv.id = k then some mv else none := rfl

/-- The key sequence after a Map set: unchanged for an existing key, the
new key appended otherwise. -/
theorem insertMap_keys : ∀ (m : List (Int × Movie)) (k : Int) (v : Movie),
    (insertMap m k v).map Prod.fst =
      if k ∈ m.map Prod.fst then m.map Prod.fst else m.map Prod.fst ++ [k]
  | [], k, v => by simp [insertMap]
  | (k', v') :: rest, k, v => by
    unfold insertMap
    by_cases hk : k' = k
    · subst hk
      rw [if_pos rfl]
      simp
    · rw [if_neg hk]
      simp only [List.map_cons]
      rw [insertMap_keys rest k v]
      by_cases hm : k ∈ rest.map Prod.fst
      · rw [if_pos hm, if_pos (List.mem_cons_of_mem _ hm)]
      · rw [if_neg hm, if_neg ?_, List.cons_append]
        intro hc
        rcases List.mem_cons.mp hc with h | h
        · exact hk h.symm
        · exact hm h

/-- First-seen deduplication only depends on the seen list up to
membership. -/
theorem firstSeenDedupAux_congr : ∀ (l s₁ s₂ : List Int),
    (∀ x, x ∈ s₁ ↔ x ∈ s₂) → firstSeenDedupAux s₁ l = firstSeenDedupAux s₂ l
  | [], _, _, _ => rfl
  | a :: as, s₁, s₂, h => by
    rw [firstSeenDedupAux_cons, firstSeenDedupAux_cons]
    by_cases ha : a ∈ s₁
    · rw [if_pos ha, if_pos ((h a).mp ha)]
      exact firstSeenDedupAux_congr as s₁ s₂ h
    · rw [if_neg ha, if_neg (fun hc => ha ((h a).mpr hc))]
      exact congrArg (a :: ·)
        (firstSeenDedupAux_congr as (a :: s₁) (a :: s₂) (fun x => by simp [h x]))

/-- The key sequence of the Map built by the merge fold: the accumulator
keys followed by the first-seen deduplication of the remaining
identifiers. -/
theorem foldl_insertMap_keys : ∀ (l : List Movie) (acc : List (Int × Movie)),
    (l.foldl (fun m mv => insertMap m mv.id mv) acc).map Prod.fst =
      acc.map Prod.fst ++ firstSeenDedupAux (acc.map Prod.fst) (l.map Movie.id)
  | [], acc => by simp [firstSeenDedupAux]
  | mv :: rest, acc => by
    rw [List.foldl_cons, foldl_insertMap_keys rest (insertMap acc mv.id mv)]
    rw [insertMap_keys]
    simp only [List.map_cons]
    rw [firstSeenDedupAux_cons]
    by_cases hm : mv.id ∈ acc.map Prod.fst
    · rw [if_pos hm, if_pos hm]
    · rw [if_neg hm, if_neg hm]
      rw [firstSeenDedupAux_congr (rest.map Movie.id) (acc.map Prod.fst ++ [mv.id])
            (mv.id :: acc.map Prod.fst) (fun x => by simp [or_comm])]
      simp

/-- First-seen deduplication yields pairwise distinct keys, none of them
already seen. -/
theorem firstSeenDedupAux_nodup : ∀ (l seen : List Int),
    (firstSeenDedupAux seen l).Nodup ∧ ∀ x ∈ firstSeenDedupAux seen l, x ∉ seen
  | [], seen => ⟨List.nodup_nil, by simp [firstSeenDedupAux]⟩
  | a :: as, seen => by
    rw [firstSeenDedupAux_cons]
    by_cases ha : a ∈ seen
    · rw [if_pos ha]
      exact firstSeenDedupAux_nodup as seen
    · rw [if_neg ha]
      have ih := firstSeenDedupAux_nodup as (a :: seen)
      constructor
      · rw [List.nodup_cons]
        exact ⟨fun hc => (ih.2 a hc) (List.mem_cons_self a seen), ih.1⟩
      · intro x hx
        rcases List.mem_cons.mp hx with h | h
        · subst h
          exact ha
        · intro hc
          exact (ih.2 x h) (List.mem_cons_of_mem a hc)

/-- Every entry of the Map keeps the identifier of its value as its key. -/
theorem insertMap_wf (m : List (Int × Movie)) (k : Int) (v : Movie)
    (hv : v.id = k) (h : ∀ p ∈ m, p.2.id = p.1) :
    ∀ p ∈ insertMap m k v, p.2.id = p.1 := by
  induction m with
  | nil =>
    intro p hp
    rw [List.mem_singleton.mp hp]
    exact hv
  | cons q rest ih =>
    obtain ⟨k', v'⟩ := q
    unfold insertMap
    by_cases hk : k' = k
    · rw [if_pos hk]
      intro p hp
      rcases List.mem_cons.mp hp with hz | hz
      · rw [hz]
        exact hv
      · exact h p (List.mem_cons_of_mem _ hz)
    · rw [if_neg hk]
      intro p hp
      rcases List.mem_cons.mp hp with hz | hz
      · rw [hz]
        exact h (k', v') (List.mem_cons_self _ _)
      · exact ih (fun q hq => h q (List.mem_cons_of_mem _ hq)) p hz

/-- Key-value agreement for the whole built Map. -/
theorem buildMap_wf : ∀ (l : List Movie) (acc : List (Int × Movie)),
    (∀ p ∈ acc, p.2.id = p.1) →
    ∀ p ∈ l.foldl (fun m mv => insertMap m mv.id mv) acc, p.2.id = p.1
  | [], _, h => h
  | mv :: rest, acc, h => buildMap_wf rest _ (insertMap_wf acc mv.id mv rfl h)

/-- Looking up the key just set yields the value just written. -/
theorem lookupM_insert_self : ∀ (m : List (Int × Movie)) (k : Int) (v : Movie),
    lookupM (insertMap m k v) k = some v
  | [], k, v => by simp [insertMap, lookupM]
  | (k', v') :: rest, k, v => by
    unfold insertMap
    by_cases hk : k' = k
    · rw [if_pos hk]
      simp [lookupM]
    · rw [if_neg hk]
      unfold lookupM
      rw [if_neg hk]
      exact lookupM_insert_self rest k v

/-- Setting one key leaves every other lookup unchanged. -/
theorem lookupM_insert_ne : ∀ (m : List (Int × Movie)) (k k' : Int) (v : Movie),
    k' ≠ k → lookupM (insertMap m k v) k' = lookupM m k'
  | [], k, k', v, h => by
    simp only [insertMap, lookupM]
    rw [if_neg (fun hc => h hc.symm)]
  | (k'', v'') :: rest, k, k', v, h => by
    unfold insertMap
    by_cases hk : k'' = k
    · rw [if_pos hk]
      unfold lookupM
      by_cases hq : k'' = k'
      · exact absurd (hq.symm.trans hk) h
      · rw [if_neg (fun hc => h hc.symm), if_neg hq]
    · rw [if_neg hk]
      unfold lookupM
      by_cases hq : k'' = k'
      · rw [if_pos hq, if_pos hq]
      · rw [if_neg hq, if_neg hq]
        exact lookupM_insert_ne rest k k' v h

/-- A lookup in the built Map returns the last occurrence of the key in the
folded list, falling back to the accumulator. -/
theorem foldl_insertMap_lookup : ∀ (l : List Movie) (acc : List (Int × Movie)) (k : Int),
    lookupM (l.foldl (fun m mv => insertMap m mv.id mv) acc) k =
      (match lastOcc l k with
       | some v => some v
       | none => lookupM acc k)
  | [], acc, k => by simp [lastOcc]
  | mv :: rest, acc, k => by
    rw [List.foldl_cons, foldl_insertMap_lookup rest (insertMap acc mv.id mv) k]
    rw [lastOcc_cons]
    rcases hl : lastOcc rest k with _ | v
    · simp only
      by_cases hk : mv.id = k
      · rw [if_pos hk, ← hk, lookupM_insert_self]
      · rw [if_neg hk, lookupM_insert_ne acc mv.id k mv (fun hc => hk hc.symm)]
    · simp only

/-- With pairwise distinct keys, membership determines the lookup. -/
theorem lookupM_of_mem : ∀ (m : List (Int × Movie)) (k : Int) (v : Movie),
    (m.map Prod.fst).Nodup → (k, v) ∈ m → lookupM m k = some v
  | [], _, _, _, h => absurd h (List.not_mem_nil _)
  | (k', v') :: rest, k, v, hn, hm => by
    unfold lookupM
    rcases List.mem_cons.mp hm with h | h
    · injection h with h1 h2
      rw [if_pos h1.symm, h2]
    · have hk : k ∈ rest.map Prod.fst := List.mem_map.mpr ⟨(k, v), h, rfl⟩
      have hn' : k' ∉ rest.map Prod.fst ∧ (rest.map Prod.fst).Nodup := by
        rw [List.map_cons] at hn
        exact List.nodup_cons.mp hn
      rw [if_neg (fun hc => hn'.1 (by rw [hc]; exact hk))]
      exact lookupM_of_mem rest k v hn'.2 h

/-- C4: the merge returns records with pairwise distinct identifiers; the
identifier sequence is the first-seen deduplication of the concatenation
base then incoming, so each identifier sits at the position of its first
occurrence there; and each returned record is the last occurrence of its
identifier in that concatenation, so for an identifier present in both
lists the incoming record wins while the base position is kept. -/
theorem mergeUniqueById_spec (base incoming : List Movie) :
    ((mergeUniqueById base incoming).map Movie.id).Nodup ∧
    (mergeUniqueById base incoming).map Movie.id =
      firstSeenDedup ((base ++ incoming).map Movie.id) ∧
    (∀ m ∈ mergeUniqueById base incoming, lastOcc (base ++ incoming) m.id = some m) := by
  have hwf : ∀ p ∈ buildMap (base ++ incoming), p.2.id = p.1 :=
    buildMap_wf (base ++ incoming) [] (by simp)
  have hkeys : (buildMap (base ++ incoming)).map Prod.fst =
      firstSeenDedup ((base ++ incoming).map Movie.id) := by
    have h := foldl_insertMap_keys (base ++ incoming) []
    simpa [buildMap, firstSeenDedup] using h
  have hids : (mergeUniqueById base incoming).map Movie.id =
      (buildMap (base ++ incoming)).map Prod.fst := by
    unfold mergeUniqueById
    rw [List.map_map]
    exact List.map_congr_left hwf
  have hnod : ((buildMap (base ++ incoming)).map Prod.fst).Nodup := by
    rw [hkeys]
    exact (firstSeenDedupAux_nodup (((base ++ incoming)).map Movie.id) []).1
  refine ⟨?_, ?_, ?_⟩
  · rw [hids]
    exact hnod
  · rw [hids, hkeys]
  · intro m hm
    unfold mergeUniqueById at hm
    obtain ⟨p, hp, hpm⟩ := List.mem_map.mp hm
    have hid : p.1 = m.id := by
      rw [← hpm]
      exact (hwf p hp).symm
    have hmem : (m.id, m) ∈ buildMap (base ++ incoming) := by
      have hpe : p = (m.id, m) := by
        obtain ⟨pk, pv⟩ := p
        simp only at hid hpm
        rw [hid, hpm]
      rw [← hpe]
      exact hp
    have hlook := lookupM_of_mem (buildMap (base ++ incoming)) m.id m hnod hmem
    rw [show buildMap (base ++ incoming) =
        (base ++ incoming).foldl (fun m mv => insertMap m mv.id mv) [] from rfl,
      foldl_insertMap_lookup] at hlook
    rcases hlast : lastOcc (base ++ incoming) m.id with _ | v
    · rw [hlast] at hlook
      simp [lookupM] at hlook
    · rw [hlast] at hlook
      simpa using hlook

/-- Closed instance of the C4 theorem on concrete overlapping pages. -/
theorem mergeUniqueById_spec_witness :
    ((mergeUniqueById [⟨1, "a"⟩, ⟨2, "b"⟩] [⟨1, "c"⟩, ⟨3, "d"⟩]).map Movie.id).Nodup ∧
    (⟨1, "c"⟩ : Movie) ∈ mergeUniqueById [⟨1, "a"⟩, ⟨2, "b"⟩] [⟨1, "c"⟩, ⟨3, "d"⟩] ∧
    lastOcc ([⟨1, "a"⟩, ⟨2, "b"⟩] ++ [⟨1, "c"⟩, ⟨3, "d"⟩]) (⟨1, "c"⟩ : Movie).id =
      some ⟨1, "c"⟩ :=
  ⟨(mergeUniqueById_spec [⟨1, "a"⟩, ⟨2, "b"⟩] [⟨1, "c"⟩, ⟨3, "d"⟩]).1,
   by decide,
   (mergeUniqueById_spec [⟨1, "a"⟩, ⟨2, "b"⟩] [⟨1, "c"⟩, ⟨3, "d"⟩]).2.2 ⟨1, "c"⟩ (by decide)⟩

/-- A hardware back press with the lock held is consumed with no state
change. -/
theorem handleHardwareBack_locked (s : Nav) (h : s.backLock = true) :
    handleHardwareBack s = (s, true) := by
  unfold handleHardwareBack
  rw [if_pos h]

/-- The hardware back arbitration never changes the stack synchronously. -/
theorem handleHardwareBack_stack (s : Nav) :
    (handleHardwareBack s).1.stack = s.stack := by
  unfold handleHardwareBack goBack scheduleNav
  repeat' split
  all_goals rfl

/-- With the lock free and a non-Home top route, the arbitration takes the
lock, schedules a pop and reports the press handled. -/
theorem handleHardwareBack_offHome (s : Nav) (hb : s.backLock = false)
    (htop : topRoute s ≠ Route.home) :
    handleHardwareBack s =
      ({ s with backLock := true, pendingNav := some NavAction.popTop }, true) := by
  unfold handleHardwareBack
  rw [if_neg (by simp [hb]), if_pos htop]
  rfl

/-- Every debounced entry point just schedules its action. -/
theorem applyCall_schedule (s : Nav) (c : NavCall) :
    applyCall s c = scheduleNav s (callAction c) := by
  cases c <;> rfl

/-- The effect of a scheduled action does not depend on the pending slot,
which it carries along unchanged. -/
theorem applyNavAction_pendingNav (s : Nav) (q : Option NavAction) (a : NavAction) :
    applyNavAction { s with pendingNav := q } a =
      { applyNavAction s a with pendingNav := q } := by
  cases a with
  | popTop =>
    dsimp only [applyNavAction]
    split <;> rfl
  | pushRoute r => rfl
  | tabSwitch t =>
    dsimp only [applyNavAction]
    split <;> rfl

/-- Firing right after scheduling applies exactly the scheduled action. -/
theorem fireNavTimer_schedule (s : Nav) (a : NavAction) :
    fireNavTimer (scheduleNav s a) = { applyNavAction s a with pendingNav := none } := by
  unfold fireNavTimer scheduleNav
  dsimp only
  rw [applyNavAction_pendingNav]

/-- A burst of entry-point calls leaves only the last call's action
scheduled. -/
theorem foldl_applyCall_concat : ∀ (cs : List NavCall) (s : Nav) (c : NavCall),
    List.foldl applyCall s (cs ++ [c]) = { s with pendingNav := some (callAction c) }
  | [], s, c => by
    rw [List.nil_append, List.foldl_cons, List.foldl_nil, applyCall_schedule]
    rfl
  | c' :: cs, s, c => by
    rw [List.cons_append, List.foldl_cons, applyCall_schedule,
      foldl_applyCall_concat cs _ c]
    rfl

/-- A tab switch never changes the stack. -/
theorem applyNavAction_tabSwitch_stack (s : Nav) (t : Tab) :
    (applyNavAction s (.tabSwitch t)).stack = s.stack := by
  dsimp only [applyNavAction]
  split <;> rfl

/-- C8: each debounced navigation entry point cancels whatever action was
scheduled and schedules its own, without touching the stack, the tab
history or the active tab; consequently a rapid burst of entry-point calls
issued before the timer fires collapses to exactly one navigation action
executing against the stack, namely the final call's. -/
theorem debounce_collapse :
    (∀ (s : Nav) (c : NavCall),
      applyCall s c = { s with pendingNav := some (callAction c) }) ∧
    (∀ (s : Nav) (c : NavCall),
      (applyCall s c).stack = s.stack ∧ (applyCall s c).tabHistory = s.tabHistory ∧
      (applyCall s c).activeTab = s.activeTab) ∧
    (∀ (s : Nav) (cs : List NavCall) (c : NavCall),
      fireNavTimer (List.foldl applyCall s (cs ++ [c])) =
        { applyNavAction s (callAction c) with pendingNav := none }) := by
  refine ⟨?_, ?_, ?_⟩
  · intro s c
    rw [applyCall_schedule]
    rfl
  · intro s c
    rw [applyCall_schedule]
    exact ⟨rfl, rfl, rfl⟩
  · intro s cs c
    rw [foldl_applyCall_concat]
    have h := fireNavTimer_schedule s (callAction c)
    rw [show scheduleNav s (callAction c) = { s with pendingNav := some (callAction c) }
      from rfl] at h
    exact h

/-- C7: the hardware back arbitration consumes the press with no state
change while the lock is held; with the lock free and a non-Home top route
it reports the press handled and the top entry is popped once the scheduled
action fires; on Home with non-empty tab history it removes the last tab,
makes it active and reports the press handled; on Home with empty tab
history it reports the press not handled. Two invocations in immediate
succession while the lock is held change the state only once and produce
exactly one stack mutation. -/
theorem hardwareBack_arbitration :
    (∀ s : Nav, s.backLock = true → handleHardwareBack s = (s, true)) ∧
    (∀ s : Nav, s.backLock = false → topRoute s ≠ Route.home → 2 ≤ s.stack.length →
      (handleHardwareBack s).2 = true ∧
      (fireNavTimer (handleHardwareBack s).1).stack = s.stack.dropLast ∧
      handleHardwareBack (handleHardwareBack s).1 = ((handleHardwareBack s).1, true) ∧
      (fireNavTimer (handleHardwareBack (handleHardwareBack s).1).1).stack =
        s.stack.dropLast) ∧
    (∀ (s : Nav) (ts : List Tab) (t : Tab), s.backLock = false →
      topRoute s = Route.home → s.tabHistory = ts ++ [t] →
      (handleHardwareBack s).2 = true ∧
      (handleHardwareBack s).1.activeTab = t ∧
      (handleHardwareBack s).1.tabHistory = ts ∧
      (handleHardwareBack s).1.stack = s.stack) ∧
    (∀ s : Nav, s.backLock = false → topRoute s = Route.home → s.tabHistory = [] →
      (handleHardwareBack s).2 = false ∧
      (handleHardwareBack s).1 = { s with backLock := true }) := by
  refine ⟨fun s h => handleHardwareBack_locked s h, ?_, ?_, ?_⟩
  · intro s hb htop hlen
    have h1 := handleHardwareBack_offHome s hb htop
    have hfire : (fireNavTimer (handleHardwareBack s).1).stack = s.stack.dropLast := by
      rw [h1]
      show (fireNavTimer (scheduleNav { s with backLock := true } NavAction.popTop)).stack
        = s.stack.dropLast
      rw [fireNavTimer_schedule]
      show (applyNavAction { s with backLock := true } NavAction.popTop).stack
        = s.stack.dropLast
      unfold applyNavAction
      rw [if_neg (by dsimp only; omega)]
    have h2 : handleHardwareBack (handleHardwareBack s).1 = ((handleHardwareBack s).1, true) := by
      apply handleHardwareBack_locked
      rw [h1]
    refine ⟨by rw [h1], hfire, h2, ?_⟩
    rw [h2]
    exact hfire
  · intro s ts t hb htop hth
    have hcomp : handleHardwareBack s =
        ({ s with
            backLock := true
            tabHistory := s.tabHistory.dropLast
            activeTab := s.tabHistory.getLastD s.activeTab }, true) := by
      unfold handleHardwareBack
      rw [if_neg (by simp [hb]), if_neg (fun hc => hc htop), if_pos (by simp [hth])]
    refine ⟨by rw [hcomp], ?_, ?_, by rw [hcomp]⟩
    · rw [hcomp]
      show s.tabHistory.getLastD s.activeTab = t
      rw [hth, List.getLastD_eq_getLast?, List.getLast?_concat]
      rfl
    · rw [hcomp]
      show s.tabHistory.dropLast = ts
      rw [hth, List.dropLast_concat]
  · intro s hb htop hth
    have hcomp : handleHardwareBack s = ({ s with backLock := true }, false) := by
      unfold handleHardwareBack
      rw [if_neg (by simp [hb]), if_neg (fun hc => hc htop), if_neg (fun hc => hc hth)]
    exact ⟨by rw [hcomp], by rw [hcomp]⟩

/-- Closed instance of the C7 theorem: on a concrete two-entry stack a
locked press is consumed with no state change, and an unlocked press pops
once the timer fires. -/
theorem hardwareBack_arbitration_witness :
    exNavLocked.backLock = true ∧
    handleHardwareBack exNavLocked = (exNavLocked, true) ∧
    (fireNavTimer (handleHardwareBack exNavDetails).1).stack = [Route.home] :=
  ⟨rfl,
   hardwareBack_arbitration.1 exNavLocked rfl,
   (hardwareBack_arbitration.2.1 exNavDetails rfl (by decide) (by decide)).2.1⟩

/-- Dropping the last element of a list of length at least two keeps its
head. -/
theorem head?_dropLast_of_two : ∀ (l : List Route), 2 ≤ l.length →
    l.dropLast.head? = l.head?
  | _ :: _ :: _, _ => rfl
  | [], h => by simp at h
  | [_], h => by simp at h

/-- Every scheduled action preserves the stack invariant. -/
theorem applyNavAction_inv (s : Nav) (a : NavAction) (h : NavInv s) :
    (applyNavAction s a).stack ≠ [] ∧ (applyNavAction s a).stack.head? = some Route.home := by
  cases a with
  | popTop =>
    dsimp only [applyNavAction]
    by_cases hl : s.stack.length ≤ 1
    · rw [if_pos hl]
      exact h
    · rw [if_neg hl]
      have hlen : 2 ≤ s.stack.length := by omega
      constructor
      · show s.stack.dropLast ≠ []
        intro hc
        have hc' := congrArg List.length hc
        rw [List.length_dropLast] at hc'
        simp at hc'
        omega
      · show s.stack.dropLast.head? = some Route.home
        rw [head?_dropLast_of_two s.stack hlen]
        exact h.2
  | pushRoute r =>
    constructor
    · show s.stack ++ [r] ≠ []
      simp
    · show (s.stack ++ [r]).head? = some Route.home
      rcases hs : s.stack with _ | ⟨x, xs⟩
      · exact absurd hs h.1
      · have h2 := h.2
        rw [hs] at h2
        rw [List.cons_append]
        simpa using h2
  | tabSwitch t =>
    dsimp only [applyNavAction]
    by_cases ht : t = s.activeTab
    · rw [if_pos ht]
      exact h
    · rw [if_neg ht]
      exact h

/-- Every navigator event preserves the stack invariant. -/
theorem navStep_inv (s : Nav) (e : NavEvent) (h : NavInv s) : NavInv (navStep s e) := by
  cases e with
  | call c =>
    show NavInv (applyCall s c)
    rw [applyCall_schedule]
    exact h
  | hardwareBack =>
    constructor
    · show (handleHardwareBack s).1.stack ≠ []
      rw [handleHardwareBack_stack]
      exact h.1
    · show (handleHardwareBack s).1.stack.head? = some Route.home
      rw [handleHardwareBack_stack]
      exact h.2
  | fireTimer =>
    show NavInv (fireNavTimer s)
    unfold fireNavTimer
    rcases hp : s.pendingNav with _ | a
    · simp only [hp]
      exact h
    · simp only [hp]
      exact applyNavAction_inv s a h
  | frame => exact h

/-- The invariant holds along every run from an invariant state. -/
theorem runNav_inv : ∀ (es : List NavEvent) (s : Nav), NavInv s → NavInv (runNav s es)
  | [], _, h => h
  | e :: es, s, h => runNav_inv es _ (navStep_inv s e h)

/-- C9: along every event sequence from the initial navigator state the
stack stays non-empty with Home as its first element, and popping a
single-element stack is a no-op that leaves the state unchanged. -/
theorem stack_never_empty :
    (∀ es : List NavEvent, (runNav initNav es).stack ≠ [] ∧
      (runNav initNav es).stack.head? = some Route.home) ∧
    (∀ (s : Nav) (r : Route), s.stack = [r] → applyNavAction s .popTop = s) := by
  constructor
  · intro es
    exact runNav_inv es initNav ⟨by simp [initNav], rfl⟩
  · intro s r h
    dsimp only [applyNavAction]
    rw [if_pos (by simp [h])]

/-- Closed instance of the C9 theorem: a run mixing pushes, presses and
timer firings keeps Home at the bottom, and popping the singleton stack is
the identity. -/
theorem stack_never_empty_witness :
    (runNav initNav [NavEvent.call (.openMovieC 3), NavEvent.fireTimer,
        NavEvent.hardwareBack, NavEvent.fireTimer]).stack ≠ [] ∧
    initNav.stack = [Route.home] ∧
    applyNavAction initNav .popTop = initNav :=
  ⟨(stack_never_empty.1 _).1, rfl, stack_never_empty.2 initNav Route.home rfl⟩

/-- C10: the hardware back arbitration never mutates the stack
synchronously; off Home it reports the press handled while only scheduling
the pop on the shared debounce timer; any debounced entry-point call made
before the timer fires replaces the scheduled pop with its own action, so a
back press reported as handled can end with the stack unchanged, as a
subsequent tab press shows. -/
theorem hardwareBack_noSyncMutation :
    (∀ s : Nav, (handleHardwareBack s).1.stack = s.stack) ∧
    (∀ s : Nav, s.backLock = false → topRoute s ≠ Route.home →
      (handleHardwareBack s).2 = true ∧
      (handleHardwareBack s).1.pendingNav = some NavAction.popTop) ∧
    (∀ (s : Nav) (c : NavCall),
      (applyCall (handleHardwareBack s).1 c).pendingNav = some (callAction c)) ∧
    (∀ (s : Nav) (t : Tab), s.backLock = false → topRoute s ≠ Route.home →
      (fireNavTimer (applyCall (handleHardwareBack s).1 (.tabPressC t))).stack = s.stack) := by
  refine ⟨handleHardwareBack_stack, ?_, ?_, ?_⟩
  · intro s hb htop
    rw [handleHardwareBack_offHome s hb htop]
    exact ⟨rfl, rfl⟩
  · intro s c
    rw [applyCall_schedule]
    rfl
  · intro s t hb htop
    rw [applyCall_schedule]
    show (fireNavTimer (scheduleNav (handleHardwareBack s).1 (.tabSwitch t))).stack = s.stack
    rw [fireNavTimer_schedule]
    show (applyNavAction (handleHardwareBack s).1 (.tabSwitch t)).stack = s.stack
    rw [applyNavAction_tabSwitch_stack]
    exact handleHardwareBack_stack s

/-- Closed instance of the C10 theorem: a handled back press on a concrete
stack is superseded by a tab press, and the stack never changes. -/
theorem hardwareBack_noSyncMutation_witness :
    exNavNine.backLock = false ∧
    (handleHardwareBack exNavNine).2 = true ∧
    (fireNavTimer (applyCall (handleHardwareBack exNavNine).1
        (.tabPressC Tab.search))).stack = [Route.home, Route.movieDetails 9] :=
  ⟨rfl,
   (hardwareBack_noSyncMutation.2.1 exNavNine rfl (by decide)).1,
   hardwareBack_noSyncMutation.2.2.2 exNavNine Tab.search rfl (by decide)⟩

example : requestWithRetry (T := Nat) (fun _ => .error ⟨true, some "CANCELLED", "x", none⟩) =
    (Except.error "Request cancelled", 1) := rfl

example : requestWithRetry (T := Nat) (fun _ => .error ⟨true, none, "boom", some 503⟩) =
    (Except.error "TMDB is temporarily unavailable. Please try again shortly.", 3) := rfl

example : requestWithRetry (T := Nat) (fun _ => .error ⟨true, none, "bad", some 404⟩) =
    (Except.error "TMDB request failed (404).", 1) := rfl

example : mergeUniqueById [⟨1, "a"⟩, ⟨2, "b"⟩] [⟨1, "c"⟩, ⟨3, "d"⟩] =
    [⟨1, "c"⟩, ⟨2, "b"⟩, ⟨3, "d"⟩] := by decide

end MovieDiscovery
